import Mathlib

/-!
Verification of the image pre/post-processing core of `base_app.py`.

This file gives a shallow embedding of the two pure functions that form the
reusable logic of the repository, `preprocess_image` and `postprocess_mask`
(`src/base_app.py`), and proves the specified properties about them.

Modelling conventions:
* a numpy `ndarray` is a `Tensor`: its shape (list of axis lengths) together
  with its elements flattened in row-major (C) order; floating-point values
  are modelled by `ℚ`;
* a decoded PIL image is an `Image`: spatial size, an optional channel count
  (`none` models a single-channel mode such as "L", whose numpy conversion is
  a 2-axis array; `some c` models a `c`-channel mode such as "RGB", whose
  numpy conversion is a 3-axis array), and the flat `uint8` pixel data;
* `PIL.Image.resize` may use any standard resampling; it is modelled as
  nearest-neighbour resampling, which suffices for every specified property
  (the spec fixes no interpolation policy);
* numpy basic indexing such as `mask[0, ..., 0]` is modelled by total
  row-major index arithmetic with default value `0`; the indexed axes of a
  well-formed model output are nonempty;
* `PIL.Image.fromarray` wraps the final 2-axis array without changing its
  shape or values, so `postprocess_mask` is modelled as returning that
  2-axis array itself.
-/

namespace BaseApp

/-- A decoded PIL image: `height × width` pixel grid, `channels = none` for a
single-channel (grayscale) image whose numpy conversion has 2 axes, and
`channels = some c` for a `c`-channel image whose numpy conversion has 3 axes.
`pix` is the flat row-major `uint8` pixel data. -/
structure Image where
  height : ℕ
  width : ℕ
  channels : Option ℕ
  pix : List ℕ
deriving Repr, DecidableEq

/-- A numpy array: its shape and its elements flattened in row-major order;
floating-point entries are modelled by `ℚ`. -/
structure Tensor where
  shape : List ℕ
  data : List ℚ
deriving Repr, DecidableEq

/-- The number of values stored per spatial position of an image
(1 for a grayscale image, `c` for a `c`-channel image). -/
def Image.chans (img : Image) : ℕ :=
  match img.channels with
  | none => 1
  | some c => c

/-- The pixel value of `img` at row `i`, column `j`, channel `k`
(row-major flat indexing, default `0`). -/
def Image.pixAt (img : Image) (i j k : ℕ) : ℕ :=
  img.pix.getD ((i * img.width + j) * img.chans + k) 0

/-- `image.resize(target_size)` of `base_app.py` line 66: resize to the target
spatial dimensions, keeping the channel structure; modelled as
nearest-neighbour resampling (the spec accepts any standard resampling). -/
def Image.resize (img : Image) (newH newW : ℕ) : Image :=
  { height := newH
    width := newW
    channels := img.channels
    pix := (List.range (newH * newW * img.chans)).map (fun idx =>
      let k := idx % img.chans
      let j := idx / img.chans % newW
      let i := idx / img.chans / newW
      img.pixAt (i * img.height / newH) (j * img.width / newW) k) }

/-- `np.array(image)`: a grayscale image decodes to a 2-axis array of shape
`(height, width)`, a `c`-channel image to a 3-axis array of shape
`(height, width, c)`; entries are the `uint8` pixels cast to ℚ. -/
def np_array (img : Image) : Tensor :=
  match img.channels with
  | none => ⟨[img.height, img.width], img.pix.map (fun (p : ℕ) => (p : ℚ))⟩
  | some c => ⟨[img.height, img.width, c], img.pix.map (fun (p : ℕ) => (p : ℚ))⟩

/-- `image_array / 255.0` of `base_app.py` line 67: elementwise division
by 255. -/
def scale255 (t : Tensor) : Tensor :=
  ⟨t.shape, t.data.map (fun x => x / 255)⟩

/-- `np.stack([image_array] * 3, axis=-1)` of `base_app.py` line 69: a new
last axis of length 3 holding three copies of the array. -/
def stack3Last (t : Tensor) : Tensor :=
  ⟨t.shape ++ [3], t.data.flatMap (fun x => [x, x, x])⟩

/-- `np.expand_dims(image_array, axis=0)` of `base_app.py` line 70: prepend a
batch axis of length 1; the flat data is unchanged. -/
def expandDims0 (t : Tensor) : Tensor :=
  ⟨1 :: t.shape, t.data⟩

/-- `preprocess_image` of `base_app.py` lines 65–71:
resize to `target_size`, scale by `1/255`, replicate the channel three times
when the scaled array has exactly 4 axes (the grayscale branch of the code), and
prepend a batch axis. In the source `target_size` defaults to `(256, 256)`. -/
def preprocess_image (image : Image) (target_size : ℕ × ℕ) : Tensor :=
  let resized := image.resize target_size.1 target_size.2
  let image_array := scale255 (np_array resized)
  let image_array :=
    if image_array.shape.length = 4 then stack3Last image_array else image_array
  expandDims0 image_array

/-- The per-pixel map of `(mask > 0.5).astype(np.uint8) * 255`
(`base_app.py` line 88): strictly-greater-than 0.5 goes to 255, the rest
to 0. -/
def thresholdVal (x : ℚ) : ℚ :=
  if 1 / 2 < x then 255 else 0

/-- `(mask > 0.5).astype(np.uint8) * 255` applied to a whole array: shape is
kept, every entry is thresholded. -/
def threshold (t : Tensor) : Tensor :=
  ⟨t.shape, t.data.map thresholdVal⟩

/-- Row-major basic indexing that keeps only channel 0 (and batch 0) of an
array whose last axis has length `c`: element `k` of the result is the flat
entry at index `k * c`, for `k < numEl`. For a 4-axis array `(b, h, w, c)`
this is `mask[0, ..., 0]` with `numEl = h * w`; for a 3-axis array
`(h, w, c)` this is `mask[..., 0]` with `numEl = h * w`. -/
def collapseChannel (numEl c : ℕ) (data : List ℚ) : List ℚ :=
  (List.range numEl).map (fun k => data.getD (k * c) 0)

/-- The `ValueError(f"Unexpected mask shape: {mask.shape}")` raised by
`postprocess_mask` (`base_app.py` line 86); it carries the offending shape,
and hence the offending axis count. -/
inductive MaskError where
  | invalidShape : List ℕ → MaskError
deriving Repr, DecidableEq

instance : DecidableEq (Except MaskError Tensor) :=
  fun a b =>
    match a, b with
    | .ok x, .ok y => decidable_of_iff (x = y) (by simp)
    | .error x, .error y => decidable_of_iff (x = y) (by simp)
    | .ok _, .error _ => isFalse (by simp)
    | .error _, .ok _ => isFalse (by simp)

/-- `postprocess_mask` of `base_app.py` lines 74–89: dispatch on the axis
count — 4 axes `(b, h, w, c)` keep batch 0 and channel 0, 3 axes `(h, w, c)`
keep channel 0, 2 axes pass through, anything else raises `ValueError`; then
threshold at 0.5 and scale to `{0, 255}`. The final `Image.fromarray` wraps
the resulting 2-axis array unchanged. -/
def postprocess_mask (mask : Tensor) : Except MaskError Tensor :=
  match mask.shape with
  | [_, h, w, c] => .ok (threshold ⟨[h, w], collapseChannel (h * w) c mask.data⟩)
  | [h, w, c] => .ok (threshold ⟨[h, w], collapseChannel (h * w) c mask.data⟩)
  | [_, _] => .ok (threshold mask)
  | s => .error (MaskError.invalidShape s)

/-! Helper lemmas about the postprocessor. -/

lemma postprocess_mask_eq_of_4axis (t : Tensor) (b h w c : ℕ)
    (hs : t.shape = [b, h, w, c]) :
    postprocess_mask t = .ok (threshold ⟨[h, w], collapseChannel (h * w) c t.data⟩) := by
  unfold postprocess_mask
  rw [hs]

lemma postprocess_mask_eq_of_3axis (t : Tensor) (h w c : ℕ)
    (hs : t.shape = [h, w, c]) :
    postprocess_mask t = .ok (threshold ⟨[h, w], collapseChannel (h * w) c t.data⟩) := by
  unfold postprocess_mask
  rw [hs]

lemma postprocess_mask_eq_of_2axis (t : Tensor) (h w : ℕ)
    (hs : t.shape = [h, w]) :
    postprocess_mask t = .ok (threshold t) := by
  unfold postprocess_mask
  rw [hs]

lemma thresholdVal_eq_zero_or_255 (x : ℚ) : thresholdVal x = 0 ∨ thresholdVal x = 255 := by
  unfold thresholdVal
  by_cases h : 1 / 2 < x
  · rw [if_pos h]
    exact Or.inr rfl
  · rw [if_neg h]
    exact Or.inl rfl

lemma threshold_data_mem (t : Tensor) : ∀ x ∈ (threshold t).data, x = 0 ∨ x = 255 := by
  intro x hx
  simp only [threshold, List.mem_map] at hx
  obtain ⟨a, -, rfl⟩ := hx
  exact thresholdVal_eq_zero_or_255 a

lemma threshold_shape (t : Tensor) : (threshold t).shape = t.shape := rfl

lemma collapseChannel_length (numEl c : ℕ) (data : List ℚ) :
    (collapseChannel numEl c data).length = numEl := by
  simp [collapseChannel]

/-! Claim theorems about the postprocessor. -/

/-- C2: `postprocess_mask` fails, with an `InvalidShape` error carrying the
offending shape (and hence its axis count), exactly when the axis
count is not 2, 3 or 4; every 2-, 3- or 4-axis input succeeds. In particular
every 1-axis and every 5-axis input fails. -/
theorem postprocess_mask_invalidShape_iff (t : Tensor) :
    ((∃ r, postprocess_mask t = .ok r) ↔
      (t.shape.length = 2 ∨ t.shape.length = 3 ∨ t.shape.length = 4)) ∧
    (t.shape.length ≠ 2 → t.shape.length ≠ 3 → t.shape.length ≠ 4 →
      postprocess_mask t = .error (MaskError.invalidShape t.shape)) := by
  obtain ⟨s, d⟩ := t
  rcases s with _ | ⟨a, _ | ⟨b, _ | ⟨c, _ | ⟨e, _ | rest⟩⟩⟩⟩ <;>
    simp [postprocess_mask]

/-- Witness for C2: the concrete 5-axis tensor of shape `(1,1,1,1,1)` fails
with `InvalidShape` naming that shape, and the concrete 1-axis tensor of
shape `(3)` fails with `InvalidShape` naming that shape. -/
theorem postprocess_mask_invalidShape_iff_witness :
    postprocess_mask ⟨[1, 1, 1, 1, 1], [1]⟩ =
        .error (MaskError.invalidShape [1, 1, 1, 1, 1]) ∧
    postprocess_mask ⟨[3], [1, 0, 1]⟩ = .error (MaskError.invalidShape [3]) :=
  ⟨(postprocess_mask_invalidShape_iff ⟨[1, 1, 1, 1, 1], [1]⟩).2
      (by decide) (by decide) (by decide),
   (postprocess_mask_invalidShape_iff ⟨[3], [1, 0, 1]⟩).2
      (by decide) (by decide) (by decide)⟩

/-- C3: Every 4-axis tensor of shape `(1, h, w, c)` — any channel count
`c` — succeeds through `postprocess_mask`, producing a 2-axis result of shape
`(h, w)` all of whose values are 0 or 255. -/
theorem postprocess_mask_4axis_shape_values (t : Tensor) (h w c : ℕ)
    (hs : t.shape = [1, h, w, c]) :
    ∃ r, postprocess_mask t = .ok r ∧ r.shape = [h, w] ∧
      r.data.length = h * w ∧ ∀ x ∈ r.data, x = 0 ∨ x = 255 := by
  refine ⟨threshold ⟨[h, w], collapseChannel (h * w) c t.data⟩,
    postprocess_mask_eq_of_4axis t 1 h w c hs, rfl, ?_, threshold_data_mem _⟩
  simp [threshold, collapseChannel]

/-- Witness for C3 at the concrete tensor of shape `(1, 2, 2, 3)`. -/
theorem postprocess_mask_4axis_shape_values_witness :
    ∃ r, postprocess_mask
        ⟨[1, 2, 2, 3], [1, 0, 0, 0, 1, 0, 0, 0, 1, 1, 1, 0]⟩ = .ok r ∧
      r.shape = [2, 2] ∧ r.data.length = 2 * 2 ∧ ∀ x ∈ r.data, x = 0 ∨ x = 255 :=
  postprocess_mask_4axis_shape_values
    ⟨[1, 2, 2, 3], [1, 0, 0, 0, 1, 0, 0, 0, 1, 1, 1, 0]⟩ 2 2 3 rfl

/-- C6: Every 2-axis input passes through `postprocess_mask` with its
shape unchanged — no axis added or removed — and its values remapped
elementwise by the 0.5 threshold `thresholdVal`. -/
theorem postprocess_mask_2axis_shape_preserved (t : Tensor) (h w : ℕ)
    (hs : t.shape = [h, w]) :
    postprocess_mask t = .ok ⟨t.shape, t.data.map thresholdVal⟩ := by
  rw [postprocess_mask_eq_of_2axis t h w hs]
  rfl

/-- Witness for C6 at the concrete 2-axis tensor of shape `(1, 2)`. -/
theorem postprocess_mask_2axis_shape_preserved_witness :
    postprocess_mask ⟨[1, 2], [1, 0]⟩ =
      .ok ⟨[1, 2], ([1, 0] : List ℚ).map thresholdVal⟩ :=
  postprocess_mask_2axis_shape_preserved ⟨[1, 2], [1, 0]⟩ 1 2 rfl

/-- C4: The threshold is strictly greater-than 0.5: values `≤ 1/2` map to
0 and values `> 1/2` map to 255; and the concrete `(1, 4, 4, 1)` tensor with
rows `[0.1, 0.6, 0.4, 0.9]` postprocesses to the `(4, 4)` image with rows
`[0, 255, 0, 255]`. -/
theorem thresholdVal_strict_half_and_example :
    (∀ x : ℚ, (x ≤ 1 / 2 → thresholdVal x = 0) ∧ (1 / 2 < x → thresholdVal x = 255)) ∧
    postprocess_mask ⟨[1, 4, 4, 1],
        [1/10, 3/5, 2/5, 9/10, 1/10, 3/5, 2/5, 9/10,
         1/10, 3/5, 2/5, 9/10, 1/10, 3/5, 2/5, 9/10]⟩ =
      .ok ⟨[4, 4],
        [0, 255, 0, 255, 0, 255, 0, 255, 0, 255, 0, 255, 0, 255, 0, 255]⟩ := by
  constructor
  · intro x
    refine ⟨fun hx => ?_, fun hx => ?_⟩
    · simp only [thresholdVal, if_neg (not_lt.mpr hx)]
    · simp only [thresholdVal, if_pos hx]
  · rw [postprocess_mask_eq_of_4axis _ 1 4 4 1 rfl]
    norm_num [threshold, collapseChannel, thresholdVal, List.range_succ]

/-- Witness for C4: the general threshold clause applied at the concrete
values 1/2 (to 0) and 3/4 (to 255). -/
theorem thresholdVal_strict_half_and_example_witness :
    thresholdVal (1 / 2) = 0 ∧ thresholdVal (3 / 4) = 255 :=
  ⟨(thresholdVal_strict_half_and_example.1 (1 / 2)).1 (by norm_num),
   (thresholdVal_strict_half_and_example.1 (3 / 4)).2 (by norm_num)⟩

lemma thresholdVal_idem (x : ℚ) : thresholdVal (thresholdVal x) = thresholdVal x := by
  rcases thresholdVal_eq_zero_or_255 x with h | h <;> rw [h] <;> norm_num [thresholdVal]

lemma threshold_idem (t : Tensor) : threshold (threshold t) = threshold t := by
  simp [threshold, List.map_map, Function.comp, thresholdVal_idem]

/-- C7: `postprocess_mask` is idempotent on its own output: any 2-axis
array it produced (its values are already only 0 or 255) postprocesses to
itself again, because thresholding at 0.5 is stable on 0 and 255. -/
theorem postprocess_mask_idempotent (t r : Tensor)
    (h : postprocess_mask t = .ok r) : postprocess_mask r = .ok r := by
  obtain ⟨s, d⟩ := t
  rcases s with _ | ⟨a, _ | ⟨b, _ | ⟨c, _ | ⟨e, _ | rest⟩⟩⟩⟩ <;>
    simp only [postprocess_mask, Except.ok.injEq, reduceCtorEq] at h
  all_goals subst h
  all_goals rw [postprocess_mask_eq_of_2axis _ _ _ rfl, threshold_idem]

/-- Witness for C7: the output of `postprocess_mask` on the concrete
`(1, 1)` tensor with value 1 postprocesses to itself. -/
theorem postprocess_mask_idempotent_witness :
    postprocess_mask ⟨[1, 1], [(255 : ℚ)]⟩ = .ok ⟨[1, 1], [(255 : ℚ)]⟩ :=
  postprocess_mask_idempotent ⟨[1, 1], [(1 : ℚ)]⟩ ⟨[1, 1], [(255 : ℚ)]⟩
    (by rw [postprocess_mask_eq_of_2axis _ 1 1 rfl]
        norm_num [threshold, thresholdVal])

lemma collapseChannel_congr (numEl c : ℕ) (d1 d2 : List ℚ)
    (h : ∀ k, k < numEl → d1.getD (k * c) 0 = d2.getD (k * c) 0) :
    collapseChannel numEl c d1 = collapseChannel numEl c d2 := by
  simp only [collapseChannel]
  exact List.map_congr_left (fun k hk => h k (List.mem_range.mp hk))

/-- C10: The output of `postprocess_mask` depends only on channel 0 (and,
for 4-axis inputs, batch slot 0): two 4-axis tensors of the same shape
`(b, h, w, c)` that agree on the flat entries `k * c` for `k < h * w` — the
entries of batch 0, channel 0 — postprocess identically, and likewise two
3-axis tensors of the same shape `(h, w, c)` that agree on channel 0. -/
theorem postprocess_mask_depends_only_on_channel0 :
    (∀ t1 t2 : Tensor, ∀ b h w c : ℕ, t1.shape = [b, h, w, c] →
      t2.shape = [b, h, w, c] →
      (∀ k, k < h * w → t1.data.getD (k * c) 0 = t2.data.getD (k * c) 0) →
      postprocess_mask t1 = postprocess_mask t2) ∧
    (∀ t1 t2 : Tensor, ∀ h w c : ℕ, t1.shape = [h, w, c] →
      t2.shape = [h, w, c] →
      (∀ k, k < h * w → t1.data.getD (k * c) 0 = t2.data.getD (k * c) 0) →
      postprocess_mask t1 = postprocess_mask t2) := by
  constructor
  · intro t1 t2 b h w c h1 h2 hag
    rw [postprocess_mask_eq_of_4axis t1 b h w c h1,
      postprocess_mask_eq_of_4axis t2 b h w c h2,
      collapseChannel_congr (h * w) c t1.data t2.data hag]
  · intro t1 t2 h w c h1 h2 hag
    rw [postprocess_mask_eq_of_3axis t1 h w c h1,
      postprocess_mask_eq_of_3axis t2 h w c h2,
      collapseChannel_congr (h * w) c t1.data t2.data hag]

/-- Witness for C10: two concrete `(1, 1, 1, 2)` tensors that agree on
channel 0 but differ on channel 1 postprocess identically. -/
theorem postprocess_mask_depends_only_on_channel0_witness :
    postprocess_mask ⟨[1, 1, 1, 2], [1, 0]⟩ =
      postprocess_mask ⟨[1, 1, 1, 2], [1, 9]⟩ :=
  postprocess_mask_depends_only_on_channel0.1
    ⟨[1, 1, 1, 2], [1, 0]⟩ ⟨[1, 1, 1, 2], [1, 9]⟩ 1 1 1 2 rfl rfl
    (fun k hk => by
      have hk0 : k = 0 := by omega
      subst hk0
      rfl)

/-! Helper lemmas about the preprocessor. -/

lemma scale255_shape (t : Tensor) : (scale255 t).shape = t.shape := rfl

lemma np_array_rank (img : Image) :
    (np_array img).shape.length = 2 ∨ (np_array img).shape.length = 3 := by
  cases h : img.channels <;> simp [np_array, h]

lemma np_array_data (img : Image) :
    (np_array img).data = img.pix.map (fun (p : ℕ) => (p : ℚ)) := by
  cases h : img.channels <;> simp [np_array, h]

lemma preprocess_image_eq_pipeline (img : Image) (ts : ℕ × ℕ) :
    preprocess_image img ts =
      expandDims0 (scale255 (np_array (img.resize ts.1 ts.2))) := by
  have hn : ¬(scale255 (np_array (img.resize ts.1 ts.2))).shape.length = 4 := by
    rcases np_array_rank (img.resize ts.1 ts.2) with h | h <;>
      rw [scale255_shape] <;> omega
  simp only [preprocess_image]
  rw [if_neg hn]

lemma getD_mem_or_default (l : List ℕ) (n d : ℕ) :
    l.getD n d ∈ l ∨ l.getD n d = d := by
  induction l generalizing n with
  | nil => exact Or.inr rfl
  | cons a t ih =>
      cases n with
      | zero => left; simp
      | succ m =>
          rcases ih m with h | h
          · left
            rw [List.getD_cons_succ]
            exact List.mem_cons_of_mem a h
          · right
            rw [List.getD_cons_succ]
            exact h

lemma resize_pix_length (img : Image) (newH newW : ℕ) :
    (img.resize newH newW).pix.length = newH * newW * img.chans := by
  simp [Image.resize]

lemma pixAt_le (img : Image) (i j k : ℕ) (hb : ∀ p ∈ img.pix, p ≤ 255) :
    img.pixAt i j k ≤ 255 := by
  have he : img.pixAt i j k =
      img.pix.getD ((i * img.width + j) * img.chans + k) 0 := rfl
  rw [he]
  rcases getD_mem_or_default img.pix ((i * img.width + j) * img.chans + k) 0 with h | h
  · exact hb _ h
  · rw [h]
    exact Nat.zero_le 255

lemma resize_pix_le (img : Image) (newH newW : ℕ)
    (hb : ∀ p ∈ img.pix, p ≤ 255) :
    ∀ p ∈ (img.resize newH newW).pix, p ≤ 255 := by
  intro p hp
  simp only [Image.resize, List.mem_map] at hp
  obtain ⟨idx, -, rfl⟩ := hp
  exact pixAt_le img _ _ _ hb

/-! Claim theorems about the preprocessor. -/

/-- C9: The grayscale channel-replication branch of `preprocess_image` is
unreachable: for every input image the scaled array has 2 or 3 axes (never
4), so the output always equals the scaled array with a batch axis prepended,
with the original channel structure of the input preserved. -/
theorem preprocess_image_stack_branch_unreachable (img : Image) (ts : ℕ × ℕ) :
    ((scale255 (np_array (img.resize ts.1 ts.2))).shape.length = 2 ∨
      (scale255 (np_array (img.resize ts.1 ts.2))).shape.length = 3) ∧
    preprocess_image img ts =
      expandDims0 (scale255 (np_array (img.resize ts.1 ts.2))) := by
  refine ⟨?_, preprocess_image_eq_pipeline img ts⟩
  rw [scale255_shape]
  exact np_array_rank (img.resize ts.1 ts.2)

/-- C8: `preprocess_image` is total: it raises no error for any input
image — grayscale or multi-channel, non-square, arbitrarily large — and for
every input and target it yields a well-formed tensor whose flat data length
equals the product of its shape. -/
theorem preprocess_image_total_wellformed (img : Image) (ts : ℕ × ℕ) :
    (preprocess_image img ts).data.length = (preprocess_image img ts).shape.prod := by
  rw [preprocess_image_eq_pipeline]
  have hd : (expandDims0 (scale255 (np_array (img.resize ts.1 ts.2)))).data.length
      = ts.1 * ts.2 * img.chans := by
    simp only [expandDims0, scale255, np_array_data, List.map_map, List.length_map]
    exact resize_pix_length img ts.1 ts.2
  rw [hd]
  cases h : img.channels with
  | none =>
      have hs : (np_array (img.resize ts.1 ts.2)).shape = [ts.1, ts.2] := by
        simp [np_array, Image.resize, h]
      simp [expandDims0, scale255_shape, hs, Image.chans, h]
  | some c =>
      have hs : (np_array (img.resize ts.1 ts.2)).shape = [ts.1, ts.2, c] := by
        simp [np_array, Image.resize, h]
      simp [expandDims0, scale255_shape, hs, Image.chans, h]
      ring

/-- C5: For every input image whose pixels lie in the native `uint8`
range 0–255, every value of the preprocessed tensor lies in `[0, 1]`
(each pixel is divided by 255). -/
theorem preprocess_image_values_unit_interval (img : Image) (ts : ℕ × ℕ)
    (hb : ∀ p ∈ img.pix, p ≤ 255) :
    ∀ x ∈ (preprocess_image img ts).data, 0 ≤ x ∧ x ≤ 1 := by
  intro x hx
  rw [preprocess_image_eq_pipeline] at hx
  have hdata : (expandDims0 (scale255 (np_array (img.resize ts.1 ts.2)))).data
      = (img.resize ts.1 ts.2).pix.map (fun (p : ℕ) => (p : ℚ) / 255) := by
    simp only [expandDims0, scale255, np_array_data, List.map_map]
    rfl
  rw [hdata, List.mem_map] at hx
  obtain ⟨p, hp, rfl⟩ := hx
  have hple : p ≤ 255 := resize_pix_le img ts.1 ts.2 hb p hp
  constructor
  · positivity
  · rw [div_le_one (by norm_num)]
    exact_mod_cast hple

/-- Witness for C5 at a concrete 1×1 grayscale image with pixel value 255
and target size `(1, 1)`: the concrete value `255 / 255` occurs in the
preprocessed data and lies in `[0, 1]`. -/
theorem preprocess_image_values_unit_interval_witness :
    ((255 : ℕ) : ℚ) / 255 ∈ (preprocess_image ⟨1, 1, none, [255]⟩ (1, 1)).data ∧
    0 ≤ ((255 : ℕ) : ℚ) / 255 ∧ ((255 : ℕ) : ℚ) / 255 ≤ 1 :=
  have hmem : ((255 : ℕ) : ℚ) / 255 ∈
      (preprocess_image ⟨1, 1, none, [255]⟩ (1, 1)).data := by
    norm_num [preprocess_image, Image.resize, Image.pixAt, Image.chans, np_array,
      scale255, expandDims0, List.range_succ]
  ⟨hmem, preprocess_image_values_unit_interval ⟨1, 1, none, [255]⟩ (1, 1)
    (by decide) (((255 : ℕ) : ℚ) / 255) hmem⟩

/-- C1 is refuted by the code: for the concrete 1×1 grayscale image with
pixel value 200 and target size `(2, 2)`, `preprocess_image` returns a
tensor of shape `(1, 2, 2)` — 3 axes and no channel axis — not the claimed
`(1, 2, 2, 3)`: the `len(shape) == 4` guard of the grayscale branch never
holds, contradicting the own comments of the code and the specified output
guarantee. -/
theorem preprocess_image_grayscale_shape_bug :
    (preprocess_image ⟨1, 1, none, [200]⟩ (2, 2)).shape = [1, 2, 2] ∧
    (preprocess_image ⟨1, 1, none, [200]⟩ (2, 2)).shape.length ≠ 4 := by
  constructor <;> decide

end BaseApp
